import Mathlib

/-!
Verification of the StarCluster PBS/Torque plugin
(`starcluster/plugins/torque.py`) against its natural-language
specification.

The plugin is embedded shallowly as trace-producing functions: every
interaction with a remote machine (an `ssh.execute` call, an apt
operation, an `isdir` query) and every interaction with the worker
pool (job submission, `wait`, `shutdown`) is recorded as an `Event`.
An `Executor` decides, per machine alias and command, whether the
remote side reports success; a step executed with
`raise_on_failure=True` aborts the surrounding command sequence when
the executor reports failure, while `ignore_exit_status=True` steps
never abort.  Each embedded function returns the list of events it
emitted together with a success flag (`false` means a Python
exception escaped the function).
-/

namespace Torque

/-- A cluster machine, identified by its alias (`node.«alias»` in the
source).  The live ssh handle is modelled by the `Executor` below. -/
structure Node where
  «alias» : String
deriving DecidableEq, Repr

/-- One observable interaction of the plugin with the outside world:
a remote command execution (with its `raise_on_failure` flag), an apt
operation, an `isdir` query, or a pool operation. -/
inductive Event where
  | execCmd (machine : String) (cmd : String) (raiseOnFailure : Bool)
  | aptCommand (machine : String) (cmd : String)
  | aptInstall (machine : String) (pkg : String)
  | isdirQuery (machine : String) (path : String)
  | submitJob (machine : String)
  | waitPool (numtasks : Nat)
  | shutdownPool
deriving DecidableEq, Repr

/-- Modelled from the spec: the Remote Executor collaborator
(spec section 6).  `node.ssh.execute`, `node.apt_command`,
`node.apt_install` and `node.ssh.isdir` live outside this file
(sshutils / node.py); the spec reduces them to per-call outcomes:
`execute(command) -> outcome`, `installPackage(name)`,
`refreshPackageIndex()` (each may fail, hard error unless tolerated)
and `pathExists(path) -> bool`.  Each field reports, per machine
alias and argument, whether the call succeeds. -/
structure Executor where
  execOk : String → String → Bool
  aptCmdOk : String → String → Bool
  aptInstallOk : String → String → Bool
  isdir : String → String → Bool

/-- Result of an embedded code fragment: the events it emitted, and
whether it finished without a Python exception escaping. -/
abbrev R := List Event × Bool

/-- Sequential composition: run `a`; if it raised, the rest of the
Python function body is not executed and the error propagates. -/
def seqR (a b : R) : R :=
  if a.2 then (a.1 ++ b.1, b.2) else a

/-- Embeds `machine.ssh.execute(cmd, raise_on_failure=True)`: emits the
command and raises iff the executor reports a non-zero exit. -/
def sshExec (ex : Executor) (machine cmd : String) : R :=
  ([Event.execCmd machine cmd true], ex.execOk machine cmd)

/-- Embeds `machine.apt_command(cmd)` — modelled from the spec:
`refreshPackageIndex()` may fail and is a hard error for the caller. -/
def aptCommandStep (ex : Executor) (machine cmd : String) : R :=
  ([Event.aptCommand machine cmd], ex.aptCmdOk machine cmd)

/-- Embeds `machine.apt_install(pkg)` — modelled from the spec:
`installPackage(name)` may fail and is a hard error for the caller. -/
def aptInstallStep (ex : Executor) (machine pkg : String) : R :=
  ([Event.aptInstall machine pkg], ex.aptInstallOk machine pkg)

/-- The `for package in ...: node.apt_install(package)` loop: installs
in declared order, aborting at the first failure. -/
def installPackages (ex : Executor) (machine : String) : List String → R
  | [] => ([], true)
  | p :: ps => seqR (aptInstallStep ex machine p) (installPackages ex machine ps)

/-- The `for cmd in config_commands: ....ssh.execute(cmd,
raise_on_failure=True)` loop: executes in order, aborting at the
first failure. -/
def execCmds (ex : Executor) (machine : String) : List String → R
  | [] => ([], true)
  | c :: cs => seqR (sshExec ex machine c) (execCmds ex machine cs)

/-- Source constant `TorquePlugin.torque_master_packages`. -/
def torque_master_packages : List String :=
  ["torque-server", "torque-scheduler", "torque-client"]

/-- Source constant `TorquePlugin.torque_client_packages`. -/
def torque_client_packages : List String := ["torque-mom"]

/-- Source constant `TorquePlugin.torque_init_script`. -/
def torque_init_script : String := "/usr/share/doc/torque-common/torque.setup"

/-- Source constant `TorquePlugin.torque_server_file`. -/
def torque_server_file : String := "/var/spool/torque/server_name"

/-- The plugin instance state set up by `TorquePlugin.__init__`. -/
structure TorquePlugin where
  compute_on_master : Bool
  torque_admin : String

/-- A Python value passed as the `compute_on_master` constructor
argument, together with its `str()` rendering. -/
inductive PyValue where
  | pybool (b : Bool)
  | pystr (s : String)
  | pyint (n : Int)
deriving DecidableEq, Repr

/-- Python `str()` of a `PyValue` (`str(True) = "True"` etc.). -/
def pyStr : PyValue → String
  | .pybool true => "True"
  | .pybool false => "False"
  | .pystr s => s
  | .pyint n => toString n

/-- Python `str.lower()`: lowercase every character. -/
def pyLower (s : String) : String := String.mk (s.data.map Char.toLower)

/-- Embeds `TorquePlugin.__init__`:
`self.compute_on_master = str(compute_on_master).lower() == "true"`,
`self.torque_admin = torque_admin`. -/
def TorquePlugin.init (compute_on_master : PyValue) (torque_admin : String) :
    TorquePlugin :=
  { compute_on_master := pyLower (pyStr compute_on_master) == "true"
    torque_admin := torque_admin }

/-- Embeds `TorquePlugin._uninstall_sge_master`: one `ssh.execute` with
`ignore_exit_status=True`, so it never raises. -/
def uninstall_sge_master (_ex : Executor) (master : Node) : R :=
  ([Event.execCmd master.«alias»
      "cd /opt/sge6/; echo y | /opt/sge6/inst_sge -ux all" false], true)

/-- Embeds `TorquePlugin._uninstall_sge_worker`: if `/opt/sge6` is absent the
uninstall command is skipped entirely; otherwise it runs with
`ignore_exit_status=True` and never raises. -/
def uninstall_sge_worker (ex : Executor) (node : Node) : R :=
  if ex.isdir node.«alias» "/opt/sge6" then
    ([Event.isdirQuery node.«alias» "/opt/sge6",
      Event.execCmd node.«alias» "/opt/sge6/inst_sge -ux" false], true)
  else
    ([Event.isdirQuery node.«alias» "/opt/sge6"], true)

/-- The `config_commands` list of `_configure_torque_master`. -/
def master_config_commands (p : TorquePlugin) (masterAlias : String) :
    List String :=
  ["service torque-scheduler stop",
   "service torque-server stop",
   "echo '" ++ masterAlias ++ "' > '" ++ torque_server_file ++ "'",
   "echo 'y' | sh " ++ torque_init_script ++ " " ++ p.torque_admin,
   "qterm",
   "service torque-server start",
   "service torque-scheduler start"]

/-- Embeds `TorquePlugin._configure_torque_master`: uninstall SGE (tolerated),
`apt_command("update")`, install the master packages in order, then
run the fixed command script, each step with `raise_on_failure=True`. -/
def configure_torque_master (ex : Executor) (p : TorquePlugin) (master : Node) :
    R :=
  seqR (uninstall_sge_master ex master)
    (seqR (aptCommandStep ex master.«alias» "update")
      (seqR (installPackages ex master.«alias» torque_master_packages)
        (execCmds ex master.«alias» (master_config_commands p master.«alias»))))

/-- The registration command `"qmgr -c 'create node %s'" % node.«alias»`. -/
def create_node_cmd (nodeAlias : String) : String :=
  "qmgr -c 'create node " ++ nodeAlias ++ "'"

/-- The deregistration command `"qmgr -c 'delete node %s'" % node.«alias»`. -/
def delete_node_cmd (nodeAlias : String) : String :=
  "qmgr -c 'delete node " ++ nodeAlias ++ "'"

/-- The `config_commands` list of `_configure_torque_node`. -/
def node_config_commands (masterAlias : String) : List String :=
  ["service torque-mom stop",
   "echo '" ++ masterAlias ++ "' > '" ++ torque_server_file ++ "'",
   "sleep 1; service torque-mom start"]

/-- Embeds `TorquePlugin._configure_torque_node`: uninstall SGE (tolerated),
`apt_command("update")`, install the client packages, register the
node on the master (`qmgr -c 'create node ...'` executed over the
master's ssh handle), then run the worker-local command script. -/
def configure_torque_node (ex : Executor) (master node : Node) : R :=
  seqR (uninstall_sge_worker ex node)
    (seqR (aptCommandStep ex node.«alias» "update")
      (seqR (installPackages ex node.«alias» torque_client_packages)
        (seqR (sshExec ex master.«alias» (create_node_cmd node.«alias»))
          (execCmds ex node.«alias» (node_config_commands master.«alias»)))))

/-- Embeds `TorquePlugin._deconfigure_torque_node`: a single deregistration
command executed over the master's ssh handle. -/
def deconfigure_torque_node (ex : Executor) (master node : Node) : R :=
  sshExec ex master.«alias» (delete_node_cmd node.«alias»)

/-- The worker set computed in `TorquePlugin.run`:
`filter(lambda n: n.«alias» != master.«alias», nodes)` and then, when
`compute_on_master` holds, the master is appended
(`compute_nodes += master`; Node iterability is outside src, the
append of the single master follows the spec's reading of that line). -/
def compute_nodes (nodes : List Node) (master : Node) (com : Bool) :
    List Node :=
  let filtered := nodes.filter (fun n => n.«alias» != master.«alias»)
  if com then filtered ++ [master] else filtered

/-- One arbitrary serialization of the concurrently running worker
jobs: the schedule picks, step by step, which job's next event is
emitted; events left over when the schedule ends are flushed in job
order (every job runs to completion before `wait` returns). -/
def interleave {α : Type} : List (List α) → List Nat → List α
  | ts, [] => ts.flatten
  | ts, i :: rest =>
    match ts[i]? with
    | some (e :: es) => e :: interleave (ts.set i es) rest
    | _ => interleave ts rest

/-- Embeds `TorquePlugin.run`: configure the master; on success, submit one
`_configure_torque_node` job per derived worker to the pool, wait for
that many completions, and shut the pool down.  Modelled from the
spec: the pool (`self.pool`, outside src) swallows each job's
failure at the job boundary, so the job traces appear — in an
arbitrary interleaving — regardless of individual outcomes, and
`run` itself succeeds once the master stage succeeded. -/
def run (ex : Executor) (p : TorquePlugin) (nodes : List Node) (master : Node)
    (sched : List Nat) : R :=
  let m := configure_torque_master ex p master
  if m.2 then
    let workers := compute_nodes nodes master p.compute_on_master
    (m.1 ++ workers.map (fun n => Event.submitJob n.«alias»)
        ++ interleave (workers.map
            (fun n => (configure_torque_node ex master n).1)) sched
        ++ [Event.waitPool workers.length, Event.shutdownPool],
     true)
  else m

/-- Embeds `TorquePlugin.on_add_node`: configure the one node synchronously. -/
def on_add_node (ex : Executor) (master node : Node) : R :=
  configure_torque_node ex master node

/-- Embeds `TorquePlugin.on_remove_node`: deconfigure the one node. -/
def on_remove_node (ex : Executor) (master node : Node) : R :=
  deconfigure_torque_node ex master node

/-- Composition of `on_add_node` immediately followed by `on_remove_node` for the
same node. -/
def add_then_remove (ex : Executor) (master node : Node) : R :=
  seqR (on_add_node ex master node) (on_remove_node ex master node)

/-- An executor on which every remote operation succeeds and every
path exists. -/
def allOkExecutor : Executor :=
  { execOk := fun _ _ => true
    aptCmdOk := fun _ _ => true
    aptInstallOk := fun _ _ => true
    isdir := fun _ _ => true }

/-- An executor on which every remote command fails with a non-zero
exit, apt operations fail, and every path exists. -/
def allFailExecutor : Executor :=
  { execOk := fun _ _ => false
    aptCmdOk := fun _ _ => false
    aptInstallOk := fun _ _ => false
    isdir := fun _ _ => true }

/-- An executor that fails exactly the given command on the given
machine and succeeds everywhere else. -/
def failOneExecutor (m c : String) : Executor :=
  { execOk := fun m' c' => !(m' == m && c' == c)
    aptCmdOk := fun _ _ => true
    aptInstallOk := fun _ _ => true
    isdir := fun _ _ => true }

/-- The complete controller-stage event sequence of a run in which
every controller step succeeds. -/
def master_full_trace (p : TorquePlugin) (a : String) : List Event :=
  Event.execCmd a "cd /opt/sge6/; echo y | /opt/sge6/inst_sge -ux all" false ::
    Event.aptCommand a "update" ::
    (torque_master_packages.map (fun pkg => Event.aptInstall a pkg) ++
      (master_config_commands p a).map (fun c => Event.execCmd a c true))

/-- States that `x` emitted a prefix of the complete event list `full`, and all of
it when `x` succeeded. -/
def TraceOf (x : R) (full : List Event) : Prop :=
  ∃ rest, x.1 ++ rest = full ∧ (x.2 = true → rest = [])

/-- Pool-bookkeeping events, as opposed to remote-machine events. -/
def isPoolEvent : Event → Bool
  | .submitJob _ => true
  | .waitPool _ => true
  | .shutdownPool => true
  | _ => false

/-! ### Generic helper lemmas on strings -/

theorem ne_of_length_lt {s t : String} (h : t.length < s.length) : s ≠ t := by
  intro he
  rw [he] at h
  exact lt_irrefl _ h

theorem append_ne_append {p₁ p₂ s₁ s₂ : String} (hl : p₁.length = p₂.length)
    (hne : p₁ ≠ p₂) : p₁ ++ s₁ ≠ p₂ ++ s₂ := by
  intro he
  apply hne
  apply String.ext
  have hd : (p₁ ++ s₁).data = (p₂ ++ s₂).data := congrArg String.data he
  rw [String.data_append, String.data_append] at hd
  exact List.append_inj_left hd hl

theorem echo_cmd_ne_qterm (a : String) :
    ("echo '" ++ a ++ "' > '" ++ torque_server_file ++ "'") ≠ "qterm" := by
  apply ne_of_length_lt
  have h6 : ("echo '" : String).length = 6 := rfl
  have h5 : ("' > '" : String).length = 5 := rfl
  have h1 : ("'" : String).length = 1 := rfl
  have hf : torque_server_file.length = 29 := rfl
  have hq : ("qterm" : String).length = 5 := rfl
  simp only [String.length_append, h6, h5, h1, hf, hq]
  omega

theorem setup_cmd_ne_qterm (ad : String) :
    ("echo 'y' | sh " ++ torque_init_script ++ " " ++ ad) ≠ "qterm" := by
  apply ne_of_length_lt
  have h14 : ("echo 'y' | sh " : String).length = 14 := rfl
  have h1 : (" " : String).length = 1 := rfl
  have hs : torque_init_script.length = 41 := rfl
  have hq : ("qterm" : String).length = 5 := rfl
  simp only [String.length_append, h14, h1, hs, hq]
  omega

theorem create_cmd_ne_qterm (a : String) : create_node_cmd a ≠ "qterm" := by
  apply ne_of_length_lt
  have h21 : ("qmgr -c 'create node " : String).length = 21 := rfl
  have h1 : ("'" : String).length = 1 := rfl
  have hq : ("qterm" : String).length = 5 := rfl
  simp only [create_node_cmd, String.length_append, h21, h1, hq]
  omega

theorem create_cmd_ne_delete_cmd (a b : String) :
    create_node_cmd a ≠ delete_node_cmd b := by
  rw [create_node_cmd, delete_node_cmd, String.append_assoc, String.append_assoc]
  exact append_ne_append rfl (by decide)

/-! ### Claim theorems -/

/-- Claim C10: for every constructor argument, the stored
compute-on-master flag is true iff the `str()` rendering of the
argument, lowercased, equals "true"; the boolean `True` and the
strings `"True"` and `"TRUE"` enable it, while `"yes"` and `"1"`
silently disable it. -/
theorem claim10 (v : PyValue) (a : String) :
    ((TorquePlugin.init v a).compute_on_master = true ↔ pyLower (pyStr v) = "true")
    ∧ (TorquePlugin.init (PyValue.pybool true) a).compute_on_master = true
    ∧ (TorquePlugin.init (PyValue.pystr "True") a).compute_on_master = true
    ∧ (TorquePlugin.init (PyValue.pystr "TRUE") a).compute_on_master = true
    ∧ (TorquePlugin.init (PyValue.pystr "yes") a).compute_on_master = false
    ∧ (TorquePlugin.init (PyValue.pystr "1") a).compute_on_master = false := by
  refine ⟨by simp [TorquePlugin.init], ?_, ?_, ?_, ?_, ?_⟩ <;>
    · simp only [TorquePlugin.init]
      decide

/-- Claim C1: the derived worker set contains exactly the machines of
the raw list whose alias differs from the controller's, together with
the controller itself when `compute_on_master` holds; in that case
the controller's alias occurs exactly once in the derived set even
when it also occurs in the raw machine list. -/
theorem claim1 (nodes : List Node) (master : Node) (com : Bool) :
    (∀ n : Node, n ∈ compute_nodes nodes master com ↔
      ((n ∈ nodes ∧ n.«alias» ≠ master.«alias») ∨ (com = true ∧ n = master)))
    ∧ (com = true →
      (compute_nodes nodes master com).countP
        (fun n => n.«alias» == master.«alias») = 1) := by
  constructor
  · intro n
    cases com <;> simp [compute_nodes, List.mem_filter, bne_iff_ne]
  · intro hcom
    subst hcom
    have h1 : (nodes.filter (fun n => n.«alias» != master.«alias»)).countP
        (fun n => n.«alias» == master.«alias») = 0 := by
      rw [List.countP_eq_zero]
      intro n hn
      have h2 := (List.mem_filter.mp hn).2
      simp only [bne_iff_ne] at h2
      simp [h2]
    have hev : compute_nodes nodes master true =
        nodes.filter (fun n => n.«alias» != master.«alias») ++ [master] := by
      simp [compute_nodes]
    rw [hev, List.countP_append, h1]
    simp

/-- Witness for C1: concrete topology in which the controller also
appears in the raw machine list and the flag is on. -/
theorem claim1_witness :
    (compute_nodes [Node.mk "node001", Node.mk "master"] (Node.mk "master")
        true).countP
      (fun n => n.«alias» == (Node.mk "master").«alias») = 1 :=
  (claim1 [Node.mk "node001", Node.mk "master"] (Node.mk "master") true).2 rfl

/-- Claim C3: on a fresh controller (every remote step succeeds), the
controller configurator emits, after the tolerated SGE removal, the
package-index refresh and the three package installs, exactly the
fixed command sequence: stop scheduler, stop server, write the
controller alias into the server-name file, run the setup script
non-interactively as the admin, `qterm`, start server, then start
scheduler. -/
theorem claim3 (ex : Executor) (p : TorquePlugin) (master : Node)
    (hu : ex.aptCmdOk master.«alias» "update" = true)
    (hi : ∀ pkg, ex.aptInstallOk master.«alias» pkg = true)
    (hc : ∀ cmd, ex.execOk master.«alias» cmd = true) :
    configure_torque_master ex p master =
      ([Event.execCmd master.«alias»
          "cd /opt/sge6/; echo y | /opt/sge6/inst_sge -ux all" false,
        Event.aptCommand master.«alias» "update",
        Event.aptInstall master.«alias» "torque-server",
        Event.aptInstall master.«alias» "torque-scheduler",
        Event.aptInstall master.«alias» "torque-client",
        Event.execCmd master.«alias» "service torque-scheduler stop" true,
        Event.execCmd master.«alias» "service torque-server stop" true,
        Event.execCmd master.«alias»
          ("echo '" ++ master.«alias» ++ "' > '" ++ torque_server_file ++ "'") true,
        Event.execCmd master.«alias»
          ("echo 'y' | sh " ++ torque_init_script ++ " " ++ p.torque_admin) true,
        Event.execCmd master.«alias» "qterm" true,
        Event.execCmd master.«alias» "service torque-server start" true,
        Event.execCmd master.«alias» "service torque-scheduler start" true],
       true) := by
  simp [configure_torque_master, uninstall_sge_master, aptCommandStep,
        aptInstallStep, installPackages, execCmds, sshExec, seqR,
        torque_master_packages, master_config_commands, hu, hi, hc]

/-- Witness for C3: the all-success executor, a concrete plugin and a
concrete controller alias. -/
theorem claim3_witness :
    configure_torque_master allOkExecutor ⟨true, "root"⟩ ⟨"master"⟩ =
      ([Event.execCmd (Node.mk "master").«alias»
          "cd /opt/sge6/; echo y | /opt/sge6/inst_sge -ux all" false,
        Event.aptCommand (Node.mk "master").«alias» "update",
        Event.aptInstall (Node.mk "master").«alias» "torque-server",
        Event.aptInstall (Node.mk "master").«alias» "torque-scheduler",
        Event.aptInstall (Node.mk "master").«alias» "torque-client",
        Event.execCmd (Node.mk "master").«alias» "service torque-scheduler stop" true,
        Event.execCmd (Node.mk "master").«alias» "service torque-server stop" true,
        Event.execCmd (Node.mk "master").«alias»
          ("echo '" ++ (Node.mk "master").«alias» ++ "' > '" ++
            torque_server_file ++ "'") true,
        Event.execCmd (Node.mk "master").«alias»
          ("echo 'y' | sh " ++ torque_init_script ++ " " ++
            (TorquePlugin.mk true "root").torque_admin) true,
        Event.execCmd (Node.mk "master").«alias» "qterm" true,
        Event.execCmd (Node.mk "master").«alias» "service torque-server start" true,
        Event.execCmd (Node.mk "master").«alias» "service torque-scheduler start" true],
       true) :=
  claim3 allOkExecutor ⟨true, "root"⟩ ⟨"master"⟩ rfl (fun _ => rfl) (fun _ => rfl)

/-! ### Small facts about events and sequencing -/

theorem execCmd_ne_of_cmd_ne {a₁ a₂ c₁ c₂ : String} {b₁ b₂ : Bool}
    (h : c₁ ≠ c₂) : Event.execCmd a₁ c₁ b₁ ≠ Event.execCmd a₂ c₂ b₂ := by
  intro he
  injection he with h1 h2 h3
  exact h h2

theorem execCmd_ne_of_machine_ne {a₁ a₂ c₁ c₂ : String} {b₁ b₂ : Bool}
    (h : a₁ ≠ a₂) : Event.execCmd a₁ c₁ b₁ ≠ Event.execCmd a₂ c₂ b₂ := by
  intro he
  injection he with h1 h2 h3
  exact h h1

theorem seqR_pos {a b : R} (h : a.2 = true) : seqR a b = (a.1 ++ b.1, b.2) := by
  simp [seqR, h]

theorem seqR_neg {a b : R} (h : a.2 = false) : seqR a b = a := by
  simp [seqR, h]

theorem seqR_traceOf {A B : R} {FA FB : List Event}
    (hA : TraceOf A FA) (hB : TraceOf B FB) : TraceOf (seqR A B) (FA ++ FB) := by
  obtain ⟨ra, hra, hea⟩ := hA
  obtain ⟨rb, hrb, heb⟩ := hB
  cases h2 : A.2 with
  | false =>
    refine ⟨ra ++ FB, ?_, ?_⟩
    · rw [seqR_neg h2, ← List.append_assoc, hra]
    · rw [seqR_neg h2, h2]
      intro hs
      exact absurd hs (by simp)
  | true =>
    have hA1 : A.1 = FA := by
      have h0 := hea h2
      rw [h0, List.append_nil] at hra
      exact hra
    refine ⟨rb, ?_, ?_⟩
    · rw [seqR_pos h2]
      show (A.1 ++ B.1) ++ rb = FA ++ FB
      rw [List.append_assoc, hrb, hA1]
    · rw [seqR_pos h2]
      exact heb

theorem step_traceOf {e : Event} {ok : Bool} : TraceOf ([e], ok) [e] :=
  ⟨[], by simp, fun _ => rfl⟩

theorem traceOf_self (x : R) : TraceOf x x.1 :=
  ⟨[], by simp, fun _ => rfl⟩

theorem installPackages_traceOf (ex : Executor) (a : String) (ps : List String) :
    TraceOf (installPackages ex a ps)
      (ps.map (fun pkg => Event.aptInstall a pkg)) := by
  induction ps with
  | nil => exact ⟨[], by simp [installPackages], fun _ => rfl⟩
  | cons p ps ih =>
    have h1 : TraceOf (aptInstallStep ex a p) [Event.aptInstall a p] :=
      step_traceOf
    have h2 := seqR_traceOf h1 ih
    simpa [installPackages] using h2

theorem execCmds_traceOf (ex : Executor) (a : String) (cs : List String) :
    TraceOf (execCmds ex a cs)
      (cs.map (fun c => Event.execCmd a c true)) := by
  induction cs with
  | nil => exact ⟨[], by simp [execCmds], fun _ => rfl⟩
  | cons c cs ih =>
    have h1 : TraceOf (sshExec ex a c) [Event.execCmd a c true] := step_traceOf
    have h2 := seqR_traceOf h1 ih
    simpa [execCmds] using h2

theorem configure_torque_master_traceOf (ex : Executor) (p : TorquePlugin)
    (master : Node) :
    TraceOf (configure_torque_master ex p master)
      (master_full_trace p master.«alias») :=
  seqR_traceOf step_traceOf
    (seqR_traceOf step_traceOf
      (seqR_traceOf (installPackages_traceOf ex master.«alias» torque_master_packages)
        (execCmds_traceOf ex master.«alias»
          (master_config_commands p master.«alias»))))

theorem mem_seqR {e : Event} {a b : R} (h : e ∈ (seqR a b).1) :
    e ∈ a.1 ∨ e ∈ b.1 := by
  cases h2 : a.2 with
  | true =>
    rw [seqR_pos h2] at h
    exact List.mem_append.mp h
  | false =>
    rw [seqR_neg h2] at h
    exact Or.inl h

theorem mem_installPackages {e : Event} {ex : Executor} {a : String}
    {ps : List String} (h : e ∈ (installPackages ex a ps).1) :
    ∃ p ∈ ps, e = Event.aptInstall a p := by
  induction ps with
  | nil => simp [installPackages] at h
  | cons p ps ih =>
    simp only [installPackages] at h
    rcases mem_seqR h with h1 | h1
    · simp [aptInstallStep] at h1
      exact ⟨p, by simp, h1⟩
    · obtain ⟨q, hq, he⟩ := ih h1
      exact ⟨q, by simp [hq], he⟩

theorem mem_execCmds {e : Event} {ex : Executor} {a : String}
    {cs : List String} (h : e ∈ (execCmds ex a cs).1) :
    ∃ c ∈ cs, e = Event.execCmd a c true := by
  induction cs with
  | nil => simp [execCmds] at h
  | cons c cs ih =>
    simp only [execCmds] at h
    rcases mem_seqR h with h1 | h1
    · simp [sshExec] at h1
      exact ⟨c, by simp, h1⟩
    · obtain ⟨d, hd, he⟩ := ih h1
      exact ⟨d, by simp [hd], he⟩

theorem mem_uninstall_sge_worker {e : Event} {ex : Executor} {n : Node}
    (h : e ∈ (uninstall_sge_worker ex n).1) :
    e = Event.isdirQuery n.«alias» "/opt/sge6" ∨
      e = Event.execCmd n.«alias» "/opt/sge6/inst_sge -ux" false := by
  rw [uninstall_sge_worker] at h
  split at h <;> simp at h <;> tauto

theorem mem_configure_torque_node {e : Event} {ex : Executor}
    {master node : Node} (h : e ∈ (configure_torque_node ex master node).1) :
    e = Event.isdirQuery node.«alias» "/opt/sge6" ∨
    e = Event.execCmd node.«alias» "/opt/sge6/inst_sge -ux" false ∨
    e = Event.aptCommand node.«alias» "update" ∨
    (∃ p ∈ torque_client_packages, e = Event.aptInstall node.«alias» p) ∨
    e = Event.execCmd master.«alias» (create_node_cmd node.«alias») true ∨
    (∃ c ∈ node_config_commands master.«alias»,
      e = Event.execCmd node.«alias» c true) := by
  simp only [configure_torque_node] at h
  rcases mem_seqR h with h1 | h1
  · rcases mem_uninstall_sge_worker h1 with h2 | h2 <;> tauto
  rcases mem_seqR h1 with h2 | h2
  · simp [aptCommandStep] at h2
    tauto
  rcases mem_seqR h2 with h3 | h3
  · exact Or.inr (Or.inr (Or.inr (Or.inl (mem_installPackages h3))))
  rcases mem_seqR h3 with h4 | h4
  · simp [sshExec] at h4
    tauto
  · exact Or.inr (Or.inr (Or.inr (Or.inr (Or.inr (mem_execCmds h4)))))

theorem node_trace_no_pool (ex : Executor) (master node : Node) :
    ∀ e ∈ (configure_torque_node ex master node).1, isPoolEvent e = false := by
  intro e he
  rcases mem_configure_torque_node he with h|h|h|⟨p,_,h⟩|h|⟨c,_,h⟩ <;>
    subst h <;> rfl

theorem full_trace_no_pool (p : TorquePlugin) (a : String) :
    ∀ e ∈ master_full_trace p a, isPoolEvent e = false := by
  intro e he
  simp [master_full_trace, torque_master_packages, master_config_commands] at he
  rcases he with h|h|h|h|h|h|h|h|h|h|h|h <;> subst h <;> rfl

theorem master_trace_no_pool (ex : Executor) (p : TorquePlugin) (master : Node) :
    ∀ e ∈ (configure_torque_master ex p master).1, isPoolEvent e = false := by
  intro e he
  obtain ⟨rest, hr, -⟩ := configure_torque_master_traceOf ex p master
  exact full_trace_no_pool p master.«alias» e
    (hr ▸ List.mem_append_left rest he)

/-! ### The interleaving of the pool jobs is a permutation of the
concatenated job traces -/

theorem flatten_perm_of_getElem {α : Type} (ts : List (List α)) (i : Nat)
    (e : α) (es : List α) (h : ts[i]? = some (e :: es)) :
    List.Perm ts.flatten (e :: (ts.set i es).flatten) := by
  induction ts generalizing i with
  | nil => simp at h
  | cons t ts ih =>
    cases i with
    | zero =>
      rw [List.getElem?_cons_zero] at h
      obtain rfl : t = e :: es := by injection h
      exact List.Perm.refl _
    | succ j =>
      rw [List.getElem?_cons_succ] at h
      have hp := ih j h
      have h1 : List.Perm (t ++ ts.flatten) (t ++ (e :: (ts.set j es).flatten)) :=
        hp.append_left t
      exact h1.trans List.perm_middle

theorem interleave_perm {α : Type} (ts : List (List α)) (s : List Nat) :
    List.Perm (interleave ts s) ts.flatten := by
  induction s generalizing ts with
  | nil => exact List.Perm.refl _
  | cons i rest ih =>
    show List.Perm (interleave ts (i :: rest)) ts.flatten
    rw [interleave]
    cases h : ts[i]? with
    | none => exact ih ts
    | some l =>
      cases l with
      | nil => exact ih ts
      | cons e es =>
        exact ((ih (ts.set i es)).cons e).trans
          (flatten_perm_of_getElem ts i e es h).symm

theorem mem_interleave {α : Type} {e : α} {ts : List (List α)} {s : List Nat}
    (h : e ∈ interleave ts s) : ∃ t ∈ ts, e ∈ t :=
  List.mem_flatten.mp ((interleave_perm ts s).mem_iff.mp h)

/-! ### Claim C4 -/

/-- Claim C4: when any controller configuration step fails, `run`
returns exactly the partial controller trace with the failure flag —
the error propagates to the caller — the emitted events are an
initial segment of the full controller sequence (remaining controller
commands are not executed), and no worker job is ever submitted. -/
theorem claim4 (ex : Executor) (p : TorquePlugin) (nodes : List Node)
    (master : Node) (sched : List Nat)
    (h : (configure_torque_master ex p master).2 = false) :
    run ex p nodes master sched = ((configure_torque_master ex p master).1, false)
    ∧ (∃ rest, (configure_torque_master ex p master).1 ++ rest =
        master_full_trace p master.«alias»)
    ∧ (∀ a, Event.submitJob a ∉ (run ex p nodes master sched).1) := by
  have hrun : run ex p nodes master sched = configure_torque_master ex p master := by
    simp [run, h]
  obtain ⟨rest, hr, -⟩ := configure_torque_master_traceOf ex p master
  refine ⟨?_, ⟨rest, hr⟩, ?_⟩
  · have hsplit : configure_torque_master ex p master =
        ((configure_torque_master ex p master).1,
         (configure_torque_master ex p master).2) := rfl
    rw [hrun, hsplit, h]
  · intro a hmem
    rw [hrun] at hmem
    have hfull : Event.submitJob a ∈ master_full_trace p master.«alias» :=
      hr ▸ List.mem_append_left rest hmem
    have := full_trace_no_pool p master.«alias» _ hfull
    simp [isPoolEvent] at this

/-- Witness for C4: on the all-failure executor the controller stage
fails (at the package-index refresh), so `run` aborts with only the
tolerated SGE-removal and the failed refresh emitted, and submits no
worker. -/
theorem claim4_witness :
    run allFailExecutor ⟨true, "root"⟩ [Node.mk "node001"] ⟨"master"⟩ [] =
      ((configure_torque_master allFailExecutor ⟨true, "root"⟩ ⟨"master"⟩).1, false)
    ∧ (∃ rest,
        (configure_torque_master allFailExecutor ⟨true, "root"⟩ ⟨"master"⟩).1 ++ rest =
          master_full_trace ⟨true, "root"⟩ (Node.mk "master").«alias»)
    ∧ (∀ a, Event.submitJob a ∉
        (run allFailExecutor ⟨true, "root"⟩ [Node.mk "node001"] ⟨"master"⟩ []).1) :=
  claim4 allFailExecutor ⟨true, "root"⟩ [Node.mk "node001"] ⟨"master"⟩ [] rfl

/-! ### Claim C2 -/

theorem count_qterm_full (p : TorquePlugin) (a : String) :
    (master_full_trace p a).count (Event.execCmd a "qterm" true) = 1 := by
  rw [master_full_trace,
      List.count_cons_of_ne (execCmd_ne_of_cmd_ne (by decide)),
      List.count_cons_of_ne (by simp),
      List.count_append]
  have h1 : (torque_master_packages.map (fun pkg => Event.aptInstall a pkg)).count
      (Event.execCmd a "qterm" true) = 0 := by
    rw [List.count_eq_zero]
    simp [torque_master_packages]
  rw [h1]
  simp only [master_config_commands, List.map_cons, List.map_nil]
  rw [List.count_cons_of_ne (execCmd_ne_of_cmd_ne (by decide)),
      List.count_cons_of_ne (execCmd_ne_of_cmd_ne (by decide)),
      List.count_cons_of_ne (execCmd_ne_of_cmd_ne (Ne.symm (echo_cmd_ne_qterm a))),
      List.count_cons_of_ne
        (execCmd_ne_of_cmd_ne (Ne.symm (setup_cmd_ne_qterm p.torque_admin))),
      List.count_cons_self,
      List.count_cons_of_ne (execCmd_ne_of_cmd_ne (by decide)),
      List.count_cons_of_ne (execCmd_ne_of_cmd_ne (by decide)),
      List.count_nil]

theorem qterm_not_mem_node_trace (ex : Executor) (master node : Node) :
    Event.execCmd master.«alias» "qterm" true ∉
      (configure_torque_node ex master node).1 := by
  intro h
  rcases mem_configure_torque_node h with h1|h1|h1|⟨p,_,h1⟩|h1|⟨c,hc,h1⟩
  · exact absurd h1 (by simp)
  · injection h1 with h2 h3 h4
    exact absurd h4 (by decide)
  · exact absurd h1 (by simp)
  · exact absurd h1 (by simp)
  · injection h1 with h2 h3 h4
    exact create_cmd_ne_qterm node.«alias» h3.symm
  · injection h1 with h2 h3 h4
    simp only [node_config_commands, List.mem_cons, List.mem_singleton] at hc
    rcases hc with rfl | rfl | rfl | hc
    · exact absurd h3 (by decide)
    · exact absurd h3.symm (echo_cmd_ne_qterm master.«alias»)
    · exact absurd h3 (by decide)
    · simp at hc

/-- Claim C2: for every non-empty derived worker set and every pool
schedule, when the controller stage succeeds the run trace starts
with the complete controller command sequence; every event after it
is either pool bookkeeping or an event belonging to some worker's
configuration job, and the controller sequence is issued exactly once
(its `qterm` command occurs exactly once in the whole run trace). -/
theorem claim2 (ex : Executor) (p : TorquePlugin) (nodes : List Node)
    (master : Node) (sched : List Nat)
    (_hw : compute_nodes nodes master p.compute_on_master ≠ [])
    (hm : (configure_torque_master ex p master).2 = true) :
    ∃ ws, (run ex p nodes master sched).1 =
        (configure_torque_master ex p master).1 ++ ws
      ∧ (∀ e ∈ ws, isPoolEvent e = true ∨
          ∃ n ∈ compute_nodes nodes master p.compute_on_master,
            e ∈ (configure_torque_node ex master n).1)
      ∧ ((run ex p nodes master sched).1).count
          (Event.execCmd master.«alias» "qterm" true) = 1 := by
  have hm1 : (configure_torque_master ex p master).1 =
      master_full_trace p master.«alias» := by
    obtain ⟨rest, hr, he⟩ := configure_torque_master_traceOf ex p master
    rw [← hr, he hm, List.append_nil]
  have hrun : run ex p nodes master sched =
      ((configure_torque_master ex p master).1 ++
        (compute_nodes nodes master p.compute_on_master).map
          (fun n => Event.submitJob n.«alias») ++
        interleave ((compute_nodes nodes master p.compute_on_master).map
          (fun n => (configure_torque_node ex master n).1)) sched ++
        [Event.waitPool (compute_nodes nodes master p.compute_on_master).length,
         Event.shutdownPool], true) := by
    simp [run, hm]
  refine ⟨(compute_nodes nodes master p.compute_on_master).map
      (fun n => Event.submitJob n.«alias») ++
      interleave ((compute_nodes nodes master p.compute_on_master).map
        (fun n => (configure_torque_node ex master n).1)) sched ++
      [Event.waitPool (compute_nodes nodes master p.compute_on_master).length,
       Event.shutdownPool], ?_, ?_, ?_⟩
  · rw [hrun]
    simp [List.append_assoc]
  · intro e he
    rcases List.mem_append.mp he with h1 | h1
    · rcases List.mem_append.mp h1 with h2 | h2
      · left
        obtain ⟨n, hn, rfl⟩ := List.mem_map.mp h2
        rfl
      · right
        obtain ⟨t, ht, het⟩ := mem_interleave h2
        obtain ⟨n, hn, rfl⟩ := List.mem_map.mp ht
        exact ⟨n, hn, het⟩
    · left
      simp only [List.mem_cons, List.mem_singleton] at h1
      rcases h1 with rfl | rfl | h1
      · rfl
      · rfl
      · simp at h1
  · rw [hrun]
    show ((configure_torque_master ex p master).1 ++ _ ++ _ ++ _).count _ = 1
    rw [List.count_append, List.count_append, List.count_append]
    have c1 : ((configure_torque_master ex p master).1).count
        (Event.execCmd master.«alias» "qterm" true) = 1 := by
      rw [hm1]
      exact count_qterm_full p master.«alias»
    have c2 : (((compute_nodes nodes master p.compute_on_master).map
        (fun n => Event.submitJob n.«alias»))).count
        (Event.execCmd master.«alias» "qterm" true) = 0 := by
      rw [List.count_eq_zero]
      simp
    have c3 : (interleave ((compute_nodes nodes master p.compute_on_master).map
        (fun n => (configure_torque_node ex master n).1)) sched).count
        (Event.execCmd master.«alias» "qterm" true) = 0 := by
      rw [(interleave_perm _ _).count_eq, List.count_eq_zero]
      intro hmem
      obtain ⟨t, ht, het⟩ := List.mem_flatten.mp hmem
      obtain ⟨n, hn, rfl⟩ := List.mem_map.mp ht
      exact qterm_not_mem_node_trace ex master n het
    have c4 : ([Event.waitPool
        (compute_nodes nodes master p.compute_on_master).length,
        Event.shutdownPool]).count
        (Event.execCmd master.«alias» "qterm" true) = 0 := by
      rw [List.count_eq_zero]
      simp
    rw [c1, c2, c3, c4]

/-- Witness for C2: a concrete one-worker topology on the all-success
executor with the empty (flush-everything) schedule. -/
theorem claim2_witness :
    ∃ ws, (run allOkExecutor ⟨true, "root"⟩ [Node.mk "node001"] ⟨"master"⟩ []).1 =
        (configure_torque_master allOkExecutor ⟨true, "root"⟩ ⟨"master"⟩).1 ++ ws
      ∧ (∀ e ∈ ws, isPoolEvent e = true ∨
          ∃ n ∈ compute_nodes [Node.mk "node001"] ⟨"master"⟩
              (TorquePlugin.mk true "root").compute_on_master,
            e ∈ (configure_torque_node allOkExecutor ⟨"master"⟩ n).1)
      ∧ ((run allOkExecutor ⟨true, "root"⟩ [Node.mk "node001"] ⟨"master"⟩ []).1).count
          (Event.execCmd (Node.mk "master").«alias» "qterm" true) = 1 :=
  claim2 allOkExecutor ⟨true, "root"⟩ [Node.mk "node001"] ⟨"master"⟩ []
    (by decide) rfl

/-! ### Claims C5 and C7 -/

theorem execCmd_ne_of_raise_ne {a₁ a₂ c₁ c₂ : String} {b₁ b₂ : Bool}
    (h : b₁ ≠ b₂) : Event.execCmd a₁ c₁ b₁ ≠ Event.execCmd a₂ c₂ b₂ := by
  intro he
  injection he with h1 h2 h3
  exact h h3

/-- The full worker-configurator run when every remote step succeeds
and the prior scheduler's directory is present. -/
theorem configure_torque_node_eq_of_ok (ex : Executor) (master node : Node)
    (hd : ex.isdir node.«alias» "/opt/sge6" = true)
    (hu : ex.aptCmdOk node.«alias» "update" = true)
    (hi : ∀ pkg, ex.aptInstallOk node.«alias» pkg = true)
    (hr : ex.execOk master.«alias» (create_node_cmd node.«alias») = true)
    (hc : ∀ c, ex.execOk node.«alias» c = true) :
    configure_torque_node ex master node =
      ([Event.isdirQuery node.«alias» "/opt/sge6",
        Event.execCmd node.«alias» "/opt/sge6/inst_sge -ux" false,
        Event.aptCommand node.«alias» "update",
        Event.aptInstall node.«alias» "torque-mom",
        Event.execCmd master.«alias» (create_node_cmd node.«alias») true,
        Event.execCmd node.«alias» "service torque-mom stop" true,
        Event.execCmd node.«alias»
          ("echo '" ++ master.«alias» ++ "' > '" ++ torque_server_file ++ "'") true,
        Event.execCmd node.«alias» "sleep 1; service torque-mom start" true],
       true) := by
  simp [configure_torque_node, uninstall_sge_worker, aptCommandStep,
        aptInstallStep, installPackages, execCmds, sshExec, seqR,
        torque_client_packages, node_config_commands, hd, hu, hi, hr, hc]

/-- Claim C5: for a worker on which every remote step succeeds, the
node configurator performs, in order: the prior-scheduler removal
(query plus tolerated uninstall), the package-index refresh and the
worker-package install, the registration command carrying the
worker's alias executed on the controller's machine (not the
worker's), then on the worker: stop the worker service, write the
controller's alias into the worker-local server-name file, and start
the worker service behind the fixed `sleep 1` delay. -/
theorem claim5 (ex : Executor) (master node : Node)
    (hd : ex.isdir node.«alias» "/opt/sge6" = true)
    (hu : ex.aptCmdOk node.«alias» "update" = true)
    (hi : ∀ pkg, ex.aptInstallOk node.«alias» pkg = true)
    (hr : ex.execOk master.«alias» (create_node_cmd node.«alias») = true)
    (hc : ∀ c, ex.execOk node.«alias» c = true) :
    configure_torque_node ex master node =
      ([Event.isdirQuery node.«alias» "/opt/sge6",
        Event.execCmd node.«alias» "/opt/sge6/inst_sge -ux" false,
        Event.aptCommand node.«alias» "update",
        Event.aptInstall node.«alias» "torque-mom",
        Event.execCmd master.«alias» (create_node_cmd node.«alias») true,
        Event.execCmd node.«alias» "service torque-mom stop" true,
        Event.execCmd node.«alias»
          ("echo '" ++ master.«alias» ++ "' > '" ++ torque_server_file ++ "'") true,
        Event.execCmd node.«alias» "sleep 1; service torque-mom start" true],
       true) :=
  configure_torque_node_eq_of_ok ex master node hd hu hi hr hc

/-- Witness for C5: the all-success executor with concrete aliases. -/
theorem claim5_witness :
    configure_torque_node allOkExecutor ⟨"master"⟩ ⟨"node001"⟩ =
      ([Event.isdirQuery (Node.mk "node001").«alias» "/opt/sge6",
        Event.execCmd (Node.mk "node001").«alias» "/opt/sge6/inst_sge -ux" false,
        Event.aptCommand (Node.mk "node001").«alias» "update",
        Event.aptInstall (Node.mk "node001").«alias» "torque-mom",
        Event.execCmd (Node.mk "master").«alias»
          (create_node_cmd (Node.mk "node001").«alias») true,
        Event.execCmd (Node.mk "node001").«alias» "service torque-mom stop" true,
        Event.execCmd (Node.mk "node001").«alias»
          ("echo '" ++ (Node.mk "master").«alias» ++ "' > '" ++
            torque_server_file ++ "'") true,
        Event.execCmd (Node.mk "node001").«alias»
          "sleep 1; service torque-mom start" true],
       true) :=
  claim5 allOkExecutor ⟨"master"⟩ ⟨"node001"⟩ rfl rfl (fun _ => rfl) rfl
    (fun _ => rfl)

/-- Claim C7: prior-scheduler removal never aborts a run, for every
executor — even one reporting non-zero exits for the removal
commands; on a worker whose `/opt/sge6` directory is absent, the
uninstall command is skipped entirely (only the directory query is
emitted) and execution continues into the next configuration step. -/
theorem claim7 (ex : Executor) (master node : Node) :
    (uninstall_sge_master ex master).2 = true
    ∧ (uninstall_sge_worker ex node).2 = true
    ∧ (ex.isdir node.«alias» "/opt/sge6" = false →
        uninstall_sge_worker ex node =
          ([Event.isdirQuery node.«alias» "/opt/sge6"], true))
    ∧ Event.aptCommand node.«alias» "update" ∈
        (configure_torque_node ex master node).1 := by
  refine ⟨rfl, ?_, ?_, ?_⟩
  · rw [uninstall_sge_worker]
    split <;> rfl
  · intro h
    simp [uninstall_sge_worker, h]
  · have hu2 : (uninstall_sge_worker ex node).2 = true := by
      rw [uninstall_sge_worker]
      split <;> rfl
    simp only [configure_torque_node, seqR_pos hu2]
    refine List.mem_append_right _ ?_
    cases ha : ex.aptCmdOk node.«alias» "update" with
    | true =>
      rw [seqR_pos (by simpa [aptCommandStep] using ha)]
      exact List.mem_append_left _ (by simp [aptCommandStep])
    | false =>
      rw [seqR_neg (by simpa [aptCommandStep] using ha)]
      simp [aptCommandStep]

/-- An executor that reports failure for every remote operation and
on which no path exists. -/
def noSgeAllFailExecutor : Executor :=
  { execOk := fun _ _ => false
    aptCmdOk := fun _ _ => false
    aptInstallOk := fun _ _ => false
    isdir := fun _ _ => false }

/-- Witness for C7: even on an executor failing everything, both
removal helpers succeed, and with the directory absent only the query
is emitted. -/
theorem claim7_witness :
    (uninstall_sge_master noSgeAllFailExecutor ⟨"master"⟩).2 = true
    ∧ uninstall_sge_worker noSgeAllFailExecutor ⟨"node001"⟩ =
        ([Event.isdirQuery (Node.mk "node001").«alias» "/opt/sge6"], true) :=
  ⟨(claim7 noSgeAllFailExecutor ⟨"master"⟩ ⟨"node001"⟩).1,
   (claim7 noSgeAllFailExecutor ⟨"master"⟩ ⟨"node001"⟩).2.2.1 rfl⟩

/-! ### Claims C6 and C9 -/

/-- Claim C6: when a worker's registration command fails, that
worker's job fails without having executed any of its worker-local
configuration commands, while `run` (the pool boundary) still
succeeds and the run trace still contains every derived worker's full
job trace: the failure stays inside the job. -/
theorem claim6 (ex : Executor) (p : TorquePlugin) (nodes : List Node)
    (master node : Node) (sched : List Nat)
    (hne : node.«alias» ≠ master.«alias»)
    (hreg : ex.execOk master.«alias» (create_node_cmd node.«alias») = false)
    (hm : (configure_torque_master ex p master).2 = true) :
    (configure_torque_node ex master node).2 = false
    ∧ (∀ c, Event.execCmd node.«alias» c true ∉
        (configure_torque_node ex master node).1)
    ∧ (run ex p nodes master sched).2 = true
    ∧ (∀ n ∈ compute_nodes nodes master p.compute_on_master,
        ∀ e ∈ (configure_torque_node ex master n).1,
          e ∈ (run ex p nodes master sched).1) := by
  have hrun : run ex p nodes master sched =
      ((configure_torque_master ex p master).1 ++
        (compute_nodes nodes master p.compute_on_master).map
          (fun n => Event.submitJob n.«alias») ++
        interleave ((compute_nodes nodes master p.compute_on_master).map
          (fun n => (configure_torque_node ex master n).1)) sched ++
        [Event.waitPool (compute_nodes nodes master p.compute_on_master).length,
         Event.shutdownPool], true) := by
    simp [run, hm]
  refine ⟨?_, ?_, ?_, ?_⟩
  · cases hd : ex.isdir node.«alias» "/opt/sge6" <;>
      cases hu : ex.aptCmdOk node.«alias» "update" <;>
      cases hi : ex.aptInstallOk node.«alias» "torque-mom" <;>
        simp [configure_torque_node, uninstall_sge_worker, seqR,
              aptCommandStep, installPackages, aptInstallStep, sshExec,
              execCmds, torque_client_packages, hreg, hd, hu, hi]
  · intro c
    cases hd : ex.isdir node.«alias» "/opt/sge6" <;>
      cases hu : ex.aptCmdOk node.«alias» "update" <;>
      cases hi : ex.aptInstallOk node.«alias» "torque-mom" <;>
        simp [configure_torque_node, uninstall_sge_worker, seqR,
              aptCommandStep, installPackages, aptInstallStep, sshExec,
              execCmds, torque_client_packages, hreg, hd, hu, hi, hne]
  · rw [hrun]
  · intro n hn e he
    have hflat : e ∈ ((compute_nodes nodes master p.compute_on_master).map
        (fun n => (configure_torque_node ex master n).1)).flatten :=
      List.mem_flatten.mpr ⟨_, List.mem_map_of_mem _ hn, he⟩
    have hint : e ∈ interleave ((compute_nodes nodes master
        p.compute_on_master).map
        (fun n => (configure_torque_node ex master n).1)) sched :=
      (interleave_perm _ _).mem_iff.mpr hflat
    rw [hrun]
    exact List.mem_append_left _ (List.mem_append_right _ hint)

/-- Witness for C6: executor failing exactly the registration command
of `node001` on the controller; first two hypotheses discharged on
concrete aliases, controller success computed. -/
theorem claim6_witness :
    (configure_torque_node (failOneExecutor "master"
        (create_node_cmd "node001")) ⟨"master"⟩ ⟨"node001"⟩).2 = false
    ∧ (∀ c, Event.execCmd (Node.mk "node001").«alias» c true ∉
        (configure_torque_node (failOneExecutor "master"
          (create_node_cmd "node001")) ⟨"master"⟩ ⟨"node001"⟩).1)
    ∧ (run (failOneExecutor "master" (create_node_cmd "node001")) ⟨true, "root"⟩
        [Node.mk "node001"] ⟨"master"⟩ []).2 = true
    ∧ (∀ n ∈ compute_nodes [Node.mk "node001"] ⟨"master"⟩
          (TorquePlugin.mk true "root").compute_on_master,
        ∀ e ∈ (configure_torque_node (failOneExecutor "master"
            (create_node_cmd "node001")) ⟨"master"⟩ n).1,
          e ∈ (run (failOneExecutor "master" (create_node_cmd "node001"))
            ⟨true, "root"⟩ [Node.mk "node001"] ⟨"master"⟩ []).1) :=
  claim6 (failOneExecutor "master" (create_node_cmd "node001")) ⟨true, "root"⟩
    [Node.mk "node001"] ⟨"master"⟩ ⟨"node001"⟩ [] (by decide) (by decide)
    (by decide)

/-- Claim C9: when the controller stage succeeds, the run trace
contains exactly one pool-job submission per derived worker, then the
job events (none of which is a pool event), then a single `wait`
whose expected count equals the number of submitted jobs, and a
single `shutdown` after that wait; `run` completes with success for
every executor, i.e. regardless of the individual worker outcomes. -/
theorem claim9 (ex : Executor) (p : TorquePlugin) (nodes : List Node)
    (master : Node) (sched : List Nat)
    (hm : (configure_torque_master ex p master).2 = true) :
    ∃ ws, (run ex p nodes master sched).1 =
        (configure_torque_master ex p master).1 ++
          (compute_nodes nodes master p.compute_on_master).map
            (fun n => Event.submitJob n.«alias») ++ ws ++
          [Event.waitPool (compute_nodes nodes master p.compute_on_master).length,
           Event.shutdownPool]
      ∧ ((compute_nodes nodes master p.compute_on_master).map
          (fun n => Event.submitJob n.«alias»)).length =
            (compute_nodes nodes master p.compute_on_master).length
      ∧ (∀ e ∈ ws, isPoolEvent e = false)
      ∧ ((run ex p nodes master sched).1).count Event.shutdownPool = 1
      ∧ (run ex p nodes master sched).2 = true := by
  have hrun : run ex p nodes master sched =
      ((configure_torque_master ex p master).1 ++
        (compute_nodes nodes master p.compute_on_master).map
          (fun n => Event.submitJob n.«alias») ++
        interleave ((compute_nodes nodes master p.compute_on_master).map
          (fun n => (configure_torque_node ex master n).1)) sched ++
        [Event.waitPool (compute_nodes nodes master p.compute_on_master).length,
         Event.shutdownPool], true) := by
    simp [run, hm]
  refine ⟨interleave ((compute_nodes nodes master p.compute_on_master).map
      (fun n => (configure_torque_node ex master n).1)) sched,
    ?_, List.length_map _ _, ?_, ?_, ?_⟩
  · rw [hrun]
  · intro e he
    obtain ⟨t, ht, het⟩ := mem_interleave he
    obtain ⟨n, hn, rfl⟩ := List.mem_map.mp ht
    exact node_trace_no_pool ex master n e het
  · rw [hrun]
    show ((configure_torque_master ex p master).1 ++ _ ++ _ ++ _).count _ = 1
    rw [List.count_append, List.count_append, List.count_append]
    have c1 : ((configure_torque_master ex p master).1).count
        Event.shutdownPool = 0 := by
      rw [List.count_eq_zero]
      intro hmem
      have := master_trace_no_pool ex p master _ hmem
      simp [isPoolEvent] at this
    have c2 : (((compute_nodes nodes master p.compute_on_master).map
        (fun n => Event.submitJob n.«alias»))).count Event.shutdownPool = 0 := by
      rw [List.count_eq_zero]
      simp
    have c3 : (interleave ((compute_nodes nodes master p.compute_on_master).map
        (fun n => (configure_torque_node ex master n).1)) sched).count
        Event.shutdownPool = 0 := by
      rw [(interleave_perm _ _).count_eq, List.count_eq_zero]
      intro hmem
      obtain ⟨t, ht, het⟩ := List.mem_flatten.mp hmem
      obtain ⟨n, hn, rfl⟩ := List.mem_map.mp ht
      have := node_trace_no_pool ex master n _ het
      simp [isPoolEvent] at this
    have c4 : ([Event.waitPool
        (compute_nodes nodes master p.compute_on_master).length,
        Event.shutdownPool]).count Event.shutdownPool = 1 := by
      rw [List.count_cons_of_ne (by simp), List.count_cons_self, List.count_nil]
    rw [c1, c2, c3, c4]
  · rw [hrun]

/-- Witness for C9: a two-worker topology on an executor that fails
every worker-local command but leaves the controller untouched; run
still completes. -/
theorem claim9_witness :
    ∃ ws, (run (failOneExecutor "node001" "service torque-mom stop")
        ⟨false, "root"⟩ [Node.mk "node001", Node.mk "node002"] ⟨"master"⟩
        [0, 1]).1 =
        (configure_torque_master (failOneExecutor "node001"
          "service torque-mom stop") ⟨false, "root"⟩ ⟨"master"⟩).1 ++
          (compute_nodes [Node.mk "node001", Node.mk "node002"] ⟨"master"⟩
            (TorquePlugin.mk false "root").compute_on_master).map
            (fun n => Event.submitJob n.«alias») ++ ws ++
          [Event.waitPool (compute_nodes [Node.mk "node001", Node.mk "node002"]
            ⟨"master"⟩ (TorquePlugin.mk false "root").compute_on_master).length,
           Event.shutdownPool]
      ∧ ((compute_nodes [Node.mk "node001", Node.mk "node002"] ⟨"master"⟩
          (TorquePlugin.mk false "root").compute_on_master).map
          (fun n => Event.submitJob n.«alias»)).length =
            (compute_nodes [Node.mk "node001", Node.mk "node002"] ⟨"master"⟩
              (TorquePlugin.mk false "root").compute_on_master).length
      ∧ (∀ e ∈ ws, isPoolEvent e = false)
      ∧ ((run (failOneExecutor "node001" "service torque-mom stop")
          ⟨false, "root"⟩ [Node.mk "node001", Node.mk "node002"] ⟨"master"⟩
          [0, 1]).1).count Event.shutdownPool = 1
      ∧ (run (failOneExecutor "node001" "service torque-mom stop")
          ⟨false, "root"⟩ [Node.mk "node001", Node.mk "node002"] ⟨"master"⟩
          [0, 1]).2 = true :=
  claim9 (failOneExecutor "node001" "service torque-mom stop") ⟨false, "root"⟩
    [Node.mk "node001", Node.mk "node002"] ⟨"master"⟩ [0, 1] (by decide)

/-! ### Claim C8 -/

/-- Claim C8: `on_add_node` immediately followed by `on_remove_node`
for the same (successfully added) worker issues the registration
command exactly once and the deregistration command exactly once to
the controller, registration strictly before deregistration; the
removal step runs only controller-side commands and touches nothing
on the removed worker. -/
theorem claim8 (ex : Executor) (master node : Node)
    (hne : node.«alias» ≠ master.«alias»)
    (hd : ex.isdir node.«alias» "/opt/sge6" = true)
    (hu : ex.aptCmdOk node.«alias» "update" = true)
    (hi : ∀ pkg, ex.aptInstallOk node.«alias» pkg = true)
    (hcr : ex.execOk master.«alias» (create_node_cmd node.«alias») = true)
    (hc : ∀ c, ex.execOk node.«alias» c = true) :
    ((add_then_remove ex master node).1).count
        (Event.execCmd master.«alias» (create_node_cmd node.«alias») true) = 1
    ∧ ((add_then_remove ex master node).1).count
        (Event.execCmd master.«alias» (delete_node_cmd node.«alias») true) = 1
    ∧ (∃ l₁ l₂, (add_then_remove ex master node).1 =
        l₁ ++ Event.execCmd master.«alias» (create_node_cmd node.«alias») true
          :: l₂
        ∧ Event.execCmd master.«alias» (delete_node_cmd node.«alias») true ∈ l₂)
    ∧ (∀ e ∈ (on_remove_node ex master node).1,
        ∃ c, e = Event.execCmd master.«alias» c true) := by
  have heq := configure_torque_node_eq_of_ok ex master node hd hu hi hcr hc
  have ht : (add_then_remove ex master node).1 =
      [Event.isdirQuery node.«alias» "/opt/sge6",
       Event.execCmd node.«alias» "/opt/sge6/inst_sge -ux" false,
       Event.aptCommand node.«alias» "update",
       Event.aptInstall node.«alias» "torque-mom",
       Event.execCmd master.«alias» (create_node_cmd node.«alias») true,
       Event.execCmd node.«alias» "service torque-mom stop" true,
       Event.execCmd node.«alias»
         ("echo '" ++ master.«alias» ++ "' > '" ++ torque_server_file ++ "'") true,
       Event.execCmd node.«alias» "sleep 1; service torque-mom start" true,
       Event.execCmd master.«alias» (delete_node_cmd node.«alias») true] := by
    rw [add_then_remove, on_add_node, on_remove_node,
        seqR_pos (show (configure_torque_node ex master node).2 = true by
          rw [heq]), heq]
    simp [deconfigure_torque_node, sshExec]
  refine ⟨?_, ?_, ?_, ?_⟩
  · rw [ht, List.count_cons_of_ne (by simp),
        List.count_cons_of_ne (execCmd_ne_of_raise_ne (by decide)),
        List.count_cons_of_ne (by simp),
        List.count_cons_of_ne (by simp),
        List.count_cons_self,
        List.count_cons_of_ne (execCmd_ne_of_machine_ne (Ne.symm hne)),
        List.count_cons_of_ne (execCmd_ne_of_machine_ne (Ne.symm hne)),
        List.count_cons_of_ne (execCmd_ne_of_machine_ne (Ne.symm hne)),
        List.count_cons_of_ne (execCmd_ne_of_cmd_ne
          (create_cmd_ne_delete_cmd node.«alias» node.«alias»)),
        List.count_nil]
  · rw [ht, List.count_cons_of_ne (by simp),
        List.count_cons_of_ne (execCmd_ne_of_raise_ne (by decide)),
        List.count_cons_of_ne (by simp),
        List.count_cons_of_ne (by simp),
        List.count_cons_of_ne (execCmd_ne_of_cmd_ne
          (Ne.symm (create_cmd_ne_delete_cmd node.«alias» node.«alias»))),
        List.count_cons_of_ne (execCmd_ne_of_machine_ne (Ne.symm hne)),
        List.count_cons_of_ne (execCmd_ne_of_machine_ne (Ne.symm hne)),
        List.count_cons_of_ne (execCmd_ne_of_machine_ne (Ne.symm hne)),
        List.count_cons_self, List.count_nil]
  · refine ⟨[Event.isdirQuery node.«alias» "/opt/sge6",
      Event.execCmd node.«alias» "/opt/sge6/inst_sge -ux" false,
      Event.aptCommand node.«alias» "update",
      Event.aptInstall node.«alias» "torque-mom"],
      [Event.execCmd node.«alias» "service torque-mom stop" true,
       Event.execCmd node.«alias»
         ("echo '" ++ master.«alias» ++ "' > '" ++ torque_server_file ++ "'") true,
       Event.execCmd node.«alias» "sleep 1; service torque-mom start" true,
       Event.execCmd master.«alias» (delete_node_cmd node.«alias») true],
      ?_, ?_⟩
    · rw [ht]
      rfl
    · simp
  · intro e he
    simp only [on_remove_node, deconfigure_torque_node, sshExec,
      List.mem_singleton] at he
    exact ⟨delete_node_cmd node.«alias», he⟩

/-- Witness for C8: concrete aliases on the all-success executor. -/
theorem claim8_witness :
    ((add_then_remove allOkExecutor ⟨"master"⟩ ⟨"node001"⟩).1).count
        (Event.execCmd (Node.mk "master").«alias»
          (create_node_cmd (Node.mk "node001").«alias») true) = 1
    ∧ ((add_then_remove allOkExecutor ⟨"master"⟩ ⟨"node001"⟩).1).count
        (Event.execCmd (Node.mk "master").«alias»
          (delete_node_cmd (Node.mk "node001").«alias») true) = 1
    ∧ (∃ l₁ l₂, (add_then_remove allOkExecutor ⟨"master"⟩ ⟨"node001"⟩).1 =
        l₁ ++ Event.execCmd (Node.mk "master").«alias»
          (create_node_cmd (Node.mk "node001").«alias») true :: l₂
        ∧ Event.execCmd (Node.mk "master").«alias»
            (delete_node_cmd (Node.mk "node001").«alias») true ∈ l₂)
    ∧ (∀ e ∈ (on_remove_node allOkExecutor ⟨"master"⟩ ⟨"node001"⟩).1,
        ∃ c, e = Event.execCmd (Node.mk "master").«alias» c true) :=
  claim8 allOkExecutor ⟨"master"⟩ ⟨"node001"⟩ (by decide) rfl rfl
    (fun _ => rfl) rfl (fun _ => rfl)

/-- Witness for C10: evaluation at the concrete argument "TRUE". -/
theorem claim10_witness :
    ((TorquePlugin.init (PyValue.pystr "TRUE") "root").compute_on_master = true ↔
      pyLower (pyStr (PyValue.pystr "TRUE")) = "true")
    ∧ (TorquePlugin.init (PyValue.pybool true) "root").compute_on_master = true
    ∧ (TorquePlugin.init (PyValue.pystr "True") "root").compute_on_master = true
    ∧ (TorquePlugin.init (PyValue.pystr "TRUE") "root").compute_on_master = true
    ∧ (TorquePlugin.init (PyValue.pystr "yes") "root").compute_on_master = false
    ∧ (TorquePlugin.init (PyValue.pystr "1") "root").compute_on_master = false :=
  claim10 (PyValue.pystr "TRUE") "root"

end Torque
